import Mathlib

/-!
Verification of the promptHub version-control and diff core.

The development shallowly embeds the data model and the operations of
src/src/hooks/usePrompts.ts (createPrompt, updatePrompt, forkPrompt) over an
explicit relational state, together with the diff pipeline consumed by
src/src/components/common/LiveDiffView.tsx, and proves or refutes the frozen
claims about them.
-/

namespace PromptHub

/-- Tag of one diff operation, mirroring diff-match-patch's
DIFF_DELETE / DIFF_INSERT / DIFF_EQUAL constants. -/
inductive DiffOp
  | del
  | ins
  | eq
deriving DecidableEq, Repr

/-- Longest common starting run of two character lists. -/
def commonStart : List Char → List Char → List Char
  | a :: as, b :: bs => if a = b then a :: commonStart as bs else []
  | _, _ => []

/-- A single diff span, omitted when its text is empty (the cleaned script
contains no empty operations). -/
def chunk (t : DiffOp) (x : List Char) : List (DiffOp × List Char) :=
  if x = [] then [] else [(t, x)]

/-- Modelled from the spec: the character-level edit script of
`diff_main` followed by `diff_cleanupSemantic` from the third-party
diff-match-patch npm package, which is a dependency and not part of this
repository.  Per spec section 4.1 the script is an ordered sequence of
equal/insert/delete spans covering both texts exactly, with adjacent same-tag
spans merged into large human-meaningful runs, and with the stated edge cases:
empty old text gives one insert of all of the new text, empty new text gives
one delete, identical texts give one equal span (empty script for both empty).
The model keeps the shared starting run and the shared trailing run as equal
spans and emits the differing middles as one delete plus one insert. -/
def diffMainL (o n : List Char) : List (DiffOp × List Char) :=
  if o = n then chunk DiffOp.eq o
  else
    let p := commonStart o n
    let o1 := o.drop p.length
    let n1 := n.drop p.length
    let sRev := commonStart o1.reverse n1.reverse
    let o2 := (o1.reverse.drop sRev.length).reverse
    let n2 := (n1.reverse.drop sRev.length).reverse
    chunk DiffOp.eq p ++ chunk DiffOp.del o2 ++ chunk DiffOp.ins n2 ++
      chunk DiffOp.eq sRev.reverse

/-- Concatenation of the spans of a script whose tag is kept. -/
def side (keep : DiffOp → Bool) : List (DiffOp × List Char) → List Char
  | [] => []
  | d :: rest => (if keep d.1 then d.2 else []) ++ side keep rest

/-- The string-level edit script used by the UI: LiveDiffView runs
`dmp.diff_main(oldContent, newContent)` then `dmp.diff_cleanupSemantic(diffs)`
(src/src/components/common/LiveDiffView.tsx lines 12-14). -/
def computeDiff (oldText newText : String) : List (DiffOp × String) :=
  (diffMainL oldText.data newText.data).map (fun d => (d.1, String.mk d.2))

/-- CSS class of a rendered span in LiveDiffView. -/
inductive SpanTag
  | ins
  | del
  | eq
deriving DecidableEq, Repr

/-- One rendered span: a tag for visual distinction plus its text. -/
structure Span where
  tag : SpanTag
  text : String
deriving DecidableEq, Repr

/-- The switch in LiveDiffView.tsx lines 29-41: DIFF_INSERT becomes an ins
element, DIFF_DELETE a del element, DIFF_EQUAL a plain span; the text is
passed through unmodified. -/
def renderOp : DiffOp × String → Span
  | (DiffOp.ins, s) => ⟨SpanTag.ins, s⟩
  | (DiffOp.del, s) => ⟨SpanTag.del, s⟩
  | (DiffOp.eq, s) => ⟨SpanTag.eq, s⟩

/-- The full rendered diff sequence produced by LiveDiffView for a pair of
texts. -/
def render (oldText newText : String) : List Span :=
  (computeDiff oldText newText).map renderOp

/-- Concatenation of the text of a list of spans, in order. -/
def concatTexts (spans : List Span) : String :=
  spans.foldr (fun sp acc => sp.text ++ acc) ""

/-- A row of the tags table; tags are deduplicated by name via upsert. -/
structure Tag where
  id : Nat
  name : String
deriving DecidableEq, Repr

/-- A row of the prompts table (the Document of the spec).  The body column is
nullable: a prompt can be created without a body. -/
structure PromptRow where
  id : Nat
  title : String
  body : Option String
  metadata : List (String × String)
  creator_id : Nat
  status : String
  visibility : String
  forked_from : Option Nat
deriving DecidableEq, Repr

/-- A row of the prompt_versions table (the Version of the spec).  The content
column receives exactly what the code inserts: a body string (nullable because
forkPrompt copies a nullable body). -/
structure VersionRow where
  id : Nat
  prompt_id : Nat
  content : Option String
  version_number : Nat
  is_latest : Bool
  change_log : String
  parent_version_id : Option Nat
  metadata : List (String × String)
deriving DecidableEq, Repr

/-- The backing store: prompts, tags, the prompt_tags association table and
prompt_versions, plus fresh-id allocators standing for the database's
generated keys. -/
structure DB where
  prompts : List PromptRow
  tags : List Tag
  prompt_tags : List (Nat × Nat)
  versions : List VersionRow
  nextPromptId : Nat
  nextVersionId : Nat
  nextTagId : Nat
deriving DecidableEq, Repr

/-- Upsert a tag by unique name (supabase .upsert on conflict name): reuse the
existing row or create a fresh one. -/
def upsertTag (db : DB) (nm : String) : DB × Tag :=
  match db.tags.find? (fun t => t.name == nm) with
  | some t => (db, t)
  | none =>
    let t : Tag := ⟨db.nextTagId, nm⟩
    ({ db with tags := db.tags ++ [t], nextTagId := db.nextTagId + 1 }, t)

/-- The per-tag upsert-then-link loop shared by createPrompt and updatePrompt
(usePrompts.ts lines 113-137 and 216-238). -/
def linkTagsByName (pid : Nat) (names : List String) (db : DB) : DB :=
  names.foldl (fun d nm =>
    let r := upsertTag d nm
    { r.1 with prompt_tags := r.1.prompt_tags ++ [(pid, r.2.id)] }) db

/-- Argument record of createPrompt's mutation. -/
structure CreateArgs where
  title : String
  body : Option String
  metadata : List (String × String)
  status : Option String
  visibility : Option String
  tags : Option (List String)
deriving DecidableEq, Repr

/-- createPrompt (usePrompts.ts lines 88-161): insert the prompt row with
defaulted status/visibility, upsert-and-link the tags, then insert Version 1
with content the provided body (or the empty string), change_log
"Initial version.", is_latest true and no parent.  The version insert's error
is swallowed with a toast; the Bool argument injects that failure. -/
def createPrompt (db : DB) (userId : Nat) (a : CreateArgs)
    (versionInsertFails : Bool) : DB × List String × PromptRow :=
  let row : PromptRow :=
    { id := db.nextPromptId, title := a.title, body := a.body,
      metadata := a.metadata, creator_id := userId,
      status := a.status.getD "draft", visibility := a.visibility.getD "private",
      forked_from := none }
  let db1 := { db with
    prompts := db.prompts ++ [row]
    nextPromptId := db.nextPromptId + 1 }
  let db2 := match a.tags with
    | none => db1
    | some names => linkTagsByName row.id names db1
  let bodyForVersion := a.body.getD ""
  if versionInsertFails then
    (db2, ["Prompt created, but failed to create initial version."], row)
  else
    let v : VersionRow :=
      { id := db2.nextVersionId, prompt_id := row.id,
        content := some bodyForVersion, version_number := 1, is_latest := true,
        change_log := "Initial version.", parent_version_id := none,
        metadata := [] }
    ({ db2 with
      versions := db2.versions ++ [v]
      nextVersionId := db2.nextVersionId + 1 }, [], row)

/-- Argument record of updatePrompt's mutation (the id travels separately). -/
structure UpdateArgs where
  title : Option String
  body : Option String
  metadata : Option (List (String × String))
  tags : Option (List String)
deriving DecidableEq, Repr

/-- Object.keys(promptFieldsToUpdate).length > 0 in usePrompts.ts line 182. -/
def hasScalarUpdates (a : UpdateArgs) : Bool :=
  a.title.isSome || a.body.isSome || a.metadata.isSome

/-- The scalar-column update applied to a matching prompt row: provided fields
overwrite, absent fields are kept. -/
def applyScalarUpdates (a : UpdateArgs) (p : PromptRow) : PromptRow :=
  { p with title := a.title.getD p.title,
           body := a.body.or p.body,
           metadata := a.metadata.getD p.metadata }

/-- Step 1 of updatePrompt (lines 181-196): update the scalar columns of the
prompts row when any were supplied. -/
def scalarUpdatedDB (db : DB) (id : Nat) (a : UpdateArgs) : DB :=
  if hasScalarUpdates a then
    { db with
      prompts := db.prompts.map
        (fun p => if p.id == id then applyScalarUpdates a p else p) }
  else db

/-- Step 2 of updatePrompt (lines 200-239): when a tag list is supplied, drop
the prompt's existing tag links and upsert-and-link the new names. -/
def tagReplacedDB (db : DB) (id : Nat) : Option (List String) → DB
  | none => db
  | some names =>
    linkTagsByName id names
      { db with
        prompt_tags := db.prompt_tags.filter (fun pt => pt.1 != id) }

/-- JavaScript truthiness of a nullable string, as used by the guard
`newBody && bodyForComparison && ...` in line 246. -/
def truthyStr : Option String → Bool
  | some s => !(s == "")
  | none => false

/-- The latest-version read of lines 254-260: order by version_number
descending, limit 1. -/
def maxVersion (db : DB) (pid : Nat) : Option VersionRow :=
  (db.versions.filter (fun v => v.prompt_id == pid)).foldl
    (fun acc v =>
      match acc with
      | none => some v
      | some m => if m.version_number < v.version_number then some v else some m)
    none

/-- Step 3 of updatePrompt (lines 241-289), the versioning logic.  The body
used for comparison is re-read from the prompts table at this point, i.e.
after step 1 already wrote the new body (line 243).  When the guard passes,
the edit script is computed, operation counts build the change log, the new
version is inserted with number latest+1 and is_latest true, and only after a
successful insert is the previous latest demoted.  A failing insert is
swallowed with the toast text of line 282. -/
def versioningStep (db : DB) (id : Nat) (newBody : Option String)
    (versionInsertFails : Bool) : DB × List String :=
  let bodyForComparison := (db.prompts.find? (fun p => p.id == id)).bind
    (fun p => p.body)
  if truthyStr newBody && truthyStr bodyForComparison
      && (newBody != bodyForComparison) then
    let ob := bodyForComparison.getD ""
    let nb := newBody.getD ""
    let diffs := computeDiff ob nb
    let additions := (diffs.filter (fun d => d.1 == DiffOp.ins)).length
    let deletions := (diffs.filter (fun d => d.1 == DiffOp.del)).length
    let changeLog := "Updated body. " ++ toString additions ++ " additions, "
      ++ toString deletions ++ " deletions."
    let latestVersion := maxVersion db id
    let newVersionNumber := match latestVersion with
      | some v => v.version_number + 1
      | none => 1
    if versionInsertFails then
      (db, ["Prompt updated, but failed to create new version."])
    else
      let v : VersionRow :=
        { id := db.nextVersionId, prompt_id := id, content := some nb,
          version_number := newVersionNumber, is_latest := true,
          change_log := changeLog,
          parent_version_id := latestVersion.map (fun lv => lv.id),
          metadata := [] }
      let dbv := { db with
        versions := db.versions ++ [v]
        nextVersionId := db.nextVersionId + 1 }
      (match latestVersion with
       | some lv =>
         { dbv with
           versions := dbv.versions.map
             (fun w => if w.id == lv.id then { w with is_latest := false } else w) }
       | none => dbv, [])
  else (db, [])

/-- updatePrompt (usePrompts.ts lines 171-298): scalar update, tag handling,
then the versioning step; throws only when the prompt row is absent. -/
def updatePrompt (db : DB) (id : Nat) (updates : UpdateArgs)
    (versionInsertFails : Bool) : Except String (DB × List String) :=
  match db.prompts.find? (fun p => p.id == id) with
  | none => .error "Failed to retrieve prompt data during update."
  | some _ =>
    let db1 := scalarUpdatedDB db id updates
    let db2 := tagReplacedDB db1 id updates.tags
    let r := versioningStep db2 id updates.body versionInsertFails
    .ok r

/-- The tag objects carried by the source prompt in forkPrompt's initial
fetch (prompt_tags joined with tags). -/
def forkSourceTags (db : DB) (promptId : Nat) : List Tag :=
  (db.prompt_tags.filter (fun pt => pt.1 == promptId)).filterMap
    (fun pt => db.tags.find? (fun t => t.id == pt.2))

/-- JavaScript's short-circuit defaulting `s || fallback` on a nullable
string: an absent or empty string falls back, any other string is kept —
used for the fork title at usePrompts.ts line 329. -/
def jsOrDefault (s : Option String) (fallback : String) : String :=
  match s with
  | some t => if t == "" then fallback else t
  | none => fallback

/-- forkPrompt (usePrompts.ts lines 307-376): read the source prompt and its
tags, insert a new prompt with copied body/metadata, draft status, private
visibility, forked_from the source id and title newTitle ||
"{source title} (Fork)" (JS truthiness: an empty newTitle also falls back),
link the existing tag ids to the new prompt, then insert the fork's
Version 1 with change_log "Initial version (forked)." and content the forked
body.  The version insert's error is swallowed with a toast; the Bool
argument injects that failure. -/
def forkPrompt (db : DB) (userId : Nat) (promptId : Nat) (newTitle : Option String)
    (versionInsertFails : Bool) : Except String (DB × List String × PromptRow) :=
  match db.prompts.find? (fun p => p.id == promptId) with
  | none => .error "Original prompt not found for forking."
  | some orig =>
    let row : PromptRow :=
      { id := db.nextPromptId,
        title := jsOrDefault newTitle (orig.title ++ " (Fork)"),
        body := orig.body, metadata := orig.metadata, creator_id := userId,
        status := "draft", visibility := "private",
        forked_from := some promptId }
    let db1 := { db with
      prompts := db.prompts ++ [row]
      nextPromptId := db.nextPromptId + 1 }
    let db2 := { db1 with
      prompt_tags := db1.prompt_tags ++
        (forkSourceTags db promptId).map (fun t => (row.id, t.id)) }
    if versionInsertFails then
      .ok (db2, ["Fork created, but failed to create initial version."], row)
    else
      let v : VersionRow :=
        { id := db2.nextVersionId, prompt_id := row.id, content := row.body,
          version_number := 1, is_latest := true,
          change_log := "Initial version (forked).", parent_version_id := none,
          metadata := [] }
      .ok ({ db2 with
        versions := db2.versions ++ [v]
        nextVersionId := db2.nextVersionId + 1 }, [], row)

/-- One public mutation of the hook, with the injected write-failure flag for
the fallible version insert. -/
inductive Op
  | create (userId : Nat) (a : CreateArgs) (versionInsertFails : Bool)
  | update (id : Nat) (a : UpdateArgs) (versionInsertFails : Bool)
  | fork (userId : Nat) (promptId : Nat) (newTitle : Option String)
      (versionInsertFails : Bool)
deriving Repr

/-- Resulting store state of one operation; a thrown operation leaves the
store unchanged. -/
def applyOp (db : DB) : Op → DB
  | .create u a f => (createPrompt db u a f).1
  | .update id a f =>
    match updatePrompt db id a f with
    | .ok r => r.1
    | .error _ => db
  | .fork u pid t f =>
    match forkPrompt db u pid t f with
    | .ok r => r.1
    | .error _ => db

/-- The initial version row of the concrete one-prompt store used as a test
fixture. -/
def vHello : VersionRow :=
  { id := 0, prompt_id := 0, content := some "Hello", version_number := 1,
    is_latest := true, change_log := "Initial version.",
    parent_version_id := none, metadata := [] }

/-- A concrete prompt row with body "Hello". -/
def pHello : PromptRow :=
  { id := 0, title := "Greeting", body := some "Hello", metadata := [],
    creator_id := 0, status := "draft", visibility := "private",
    forked_from := none }

/-- A concrete store holding the single prompt pHello with its initial
version. -/
def dbHello : DB :=
  { prompts := [pHello], tags := [], prompt_tags := [], versions := [vHello],
    nextPromptId := 1, nextVersionId := 1, nextTagId := 0 }

/-- An update that changes the body "Hello" to "Hello world". -/
def updHW : UpdateArgs :=
  { title := none, body := some "Hello world", metadata := none, tags := none }

/-- An update that resubmits the stored body "Hello" unchanged together with
a title edit. -/
def updSame : UpdateArgs :=
  { title := some "Greeting 2", body := some "Hello", metadata := none,
    tags := none }

/-- An update that clears the body to the empty string. -/
def updClear : UpdateArgs :=
  { title := none, body := some "", metadata := none, tags := none }

/-- A concrete source prompt for forking. -/
def srcPrompt : PromptRow :=
  { id := 0, title := "Src", body := some "Body",
    metadata := [("model", "GPT-4")], creator_id := 3, status := "active",
    visibility := "public", forked_from := none }

/-- The initial version row of the fork fixture. -/
def vBody : VersionRow :=
  { id := 0, prompt_id := 0, content := some "Body", version_number := 1,
    is_latest := true, change_log := "Initial version.",
    parent_version_id := none, metadata := [] }

/-- A concrete store holding srcPrompt with two linked tags and its initial
version. -/
def dbFork : DB :=
  { prompts := [srcPrompt], tags := [⟨0, "t1"⟩, ⟨1, "t2"⟩],
    prompt_tags := [(0, 0), (0, 1)], versions := [vBody],
    nextPromptId := 1, nextVersionId := 1, nextTagId := 2 }

/-- The empty store. -/
def dbEmpty : DB :=
  { prompts := [], tags := [], prompt_tags := [], versions := [],
    nextPromptId := 0, nextVersionId := 0, nextTagId := 0 }

/-- Creation arguments carrying a title, a body, model metadata and a tag —
the full document state a snapshot would have to capture. -/
def createSnap : CreateArgs :=
  { title := "T", body := some "B", metadata := [("model", "GPT-4")],
    status := none, visibility := none, tags := some ["t1"] }

/-- Spec invariant I1 over the version table: every nonempty scope has a
latest version, the latest version of a scope is unique, and it carries the
maximum version_number of its scope. -/
def latestOk (l : List VersionRow) : Prop :=
  (∀ v ∈ l, ∃ w ∈ l, w.prompt_id = v.prompt_id ∧ w.is_latest = true) ∧
  (∀ v ∈ l, v.is_latest = true → ∀ w ∈ l, w.prompt_id = v.prompt_id →
    (w.is_latest = true → w = v) ∧ w.version_number ≤ v.version_number)

instance (l : List VersionRow) : Decidable (latestOk l) := by
  unfold latestOk
  infer_instance

/-- Spec invariant I2 over the version table: within a scope the version
numbers are gap-free starting at 1 — below every stored number, every
positive number is also stored. -/
def gapFree (l : List VersionRow) : Prop :=
  ∀ v ∈ l, ∀ k ∈ List.range v.version_number,
    ∃ w ∈ l, w.prompt_id = v.prompt_id ∧ w.version_number = k + 1

instance (l : List VersionRow) : Decidable (gapFree l) := by
  unfold gapFree
  infer_instance

/-- Soundness of the store's generated keys: every stored version belongs to
an already-allocated prompt id, so a freshly inserted prompt row opens an
empty version scope. -/
def scopesBounded (db : DB) : Prop :=
  ∀ v ∈ db.versions, v.prompt_id < db.nextPromptId

instance (db : DB) : Decidable (scopesBounded db) := by
  unfold scopesBounded
  infer_instance

theorem commonStart_append_drop :
    ∀ as bs : List Char, commonStart as bs ++ as.drop (commonStart as bs).length = as
  | [], bs => by cases bs <;> rfl
  | _ :: _, [] => rfl
  | a :: as, b :: bs => by
    by_cases h : a = b
    · simp only [commonStart, if_pos h, List.length_cons, List.drop_succ_cons,
        List.cons_append, List.cons.injEq, true_and]
      exact commonStart_append_drop as bs
    · simp [commonStart, if_neg h]

theorem commonStart_comm :
    ∀ as bs : List Char, commonStart as bs = commonStart bs as
  | [], bs => by cases bs <;> rfl
  | _ :: _, [] => rfl
  | a :: as, b :: bs => by
    by_cases h : a = b
    · subst h; simp only [commonStart, if_pos rfl]
      exact congrArg _ (commonStart_comm as bs)
    · simp [commonStart, if_neg h, if_neg (Ne.symm h)]

theorem commonStart_append_drop_right (as bs : List Char) :
    commonStart as bs ++ bs.drop (commonStart as bs).length = bs := by
  rw [commonStart_comm]; exact commonStart_append_drop bs as

theorem side_append (keep : DiffOp → Bool) :
    ∀ s1 s2, side keep (s1 ++ s2) = side keep s1 ++ side keep s2
  | [], _ => rfl
  | d :: rest, s2 => by
    show (if keep d.1 then d.2 else []) ++ side keep (rest ++ s2)
        = ((if keep d.1 then d.2 else []) ++ side keep rest) ++ side keep s2
    rw [side_append keep rest s2, List.append_assoc]

theorem side_chunk (keep : DiffOp → Bool) (t : DiffOp) (x : List Char) :
    side keep (chunk t x) = if keep t then x else [] := by
  unfold chunk
  by_cases hx : x = []
  · subst hx; cases keep t <;> simp [side]
  · simp [side, if_neg hx]

theorem tail_reassemble (u v : List Char) :
    (u.reverse.drop (commonStart u.reverse v.reverse).length).reverse ++
      (commonStart u.reverse v.reverse).reverse = u := by
  calc (u.reverse.drop (commonStart u.reverse v.reverse).length).reverse ++
        (commonStart u.reverse v.reverse).reverse
      = (commonStart u.reverse v.reverse ++
          u.reverse.drop (commonStart u.reverse v.reverse).length).reverse := by
        rw [List.reverse_append]
    _ = u.reverse.reverse := by rw [commonStart_append_drop]
    _ = u := List.reverse_reverse u

theorem tail_reassemble_right (u v : List Char) :
    (u.reverse.drop (commonStart v.reverse u.reverse).length).reverse ++
      (commonStart v.reverse u.reverse).reverse = u := by
  rw [commonStart_comm]; exact tail_reassemble u v

theorem old_side_diffMainL (o n : List Char) :
    side (fun t => t != DiffOp.ins) (diffMainL o n) = o := by
  unfold diffMainL
  by_cases h : o = n
  · simp [if_pos h, side_chunk]
  · simp [if_neg h, side_append, side_chunk, List.append_assoc]
    rw [tail_reassemble (o.drop (commonStart o n).length) (n.drop (commonStart o n).length)]
    exact commonStart_append_drop o n

theorem new_side_diffMainL (o n : List Char) :
    side (fun t => t != DiffOp.del) (diffMainL o n) = n := by
  unfold diffMainL
  by_cases h : o = n
  · simp [if_pos h, side_chunk, h]
  · simp [if_neg h, side_append, side_chunk, List.append_assoc]
    rw [tail_reassemble_right (n.drop (commonStart o n).length)
      (o.drop (commonStart o n).length)]
    exact commonStart_append_drop_right o n

theorem mkAppend (a b : List Char) :
    String.mk a ++ String.mk b = String.mk (a ++ b) := rfl

theorem mkData (s : String) : String.mk s.data = s := rfl

theorem concatTexts_filter_del (script : List (DiffOp × List Char)) :
    concatTexts (((script.map (fun d => (d.1, String.mk d.2))).map renderOp).filter
        (fun sp => sp.tag != SpanTag.del))
      = String.mk (side (fun t => t != DiffOp.del) script) := by
  induction script with
  | nil => rfl
  | cons d rest ih =>
    obtain ⟨t, x⟩ := d
    cases t with
    | del =>
      show concatTexts _ = String.mk ([] ++ _)
      rw [List.nil_append]; exact ih
    | ins =>
      show String.mk x ++ concatTexts _ = String.mk (x ++ _)
      rw [ih, mkAppend]
    | eq =>
      show String.mk x ++ concatTexts _ = String.mk (x ++ _)
      rw [ih, mkAppend]

theorem concatTexts_filter_ins (script : List (DiffOp × List Char)) :
    concatTexts (((script.map (fun d => (d.1, String.mk d.2))).map renderOp).filter
        (fun sp => sp.tag != SpanTag.ins))
      = String.mk (side (fun t => t != DiffOp.ins) script) := by
  induction script with
  | nil => rfl
  | cons d rest ih =>
    obtain ⟨t, x⟩ := d
    cases t with
    | ins =>
      show concatTexts _ = String.mk ([] ++ _)
      rw [List.nil_append]; exact ih
    | del =>
      show String.mk x ++ concatTexts _ = String.mk (x ++ _)
      rw [ih, mkAppend]
    | eq =>
      show String.mk x ++ concatTexts _ = String.mk (x ++ _)
      rw [ih, mkAppend]

/-- Claim C1: for every pair (oldText, newText) the rendered diff sequence
produced by LiveDiffView is lossless: concatenating the text of all spans
except the delete spans, in order, yields exactly newText, and concatenating
the text of all spans except the insert spans yields exactly oldText. -/
theorem liveDiffView_render_lossless (oldText newText : String) :
    concatTexts ((render oldText newText).filter (fun sp => sp.tag != SpanTag.del))
        = newText ∧
    concatTexts ((render oldText newText).filter (fun sp => sp.tag != SpanTag.ins))
        = oldText := by
  constructor
  · show concatTexts ((((diffMainL oldText.data newText.data).map
        (fun d => (d.1, String.mk d.2))).map renderOp).filter
        (fun sp => sp.tag != SpanTag.del)) = newText
    rw [concatTexts_filter_del, new_side_diffMainL, mkData]
  · show concatTexts ((((diffMainL oldText.data newText.data).map
        (fun d => (d.1, String.mk d.2))).map renderOp).filter
        (fun sp => sp.tag != SpanTag.ins)) = oldText
    rw [concatTexts_filter_ins, old_side_diffMainL, mkData]

theorem upsertTag_keeps (db : DB) (nm : String) :
    (upsertTag db nm).1.prompts = db.prompts ∧
    (upsertTag db nm).1.versions = db.versions ∧
    (upsertTag db nm).1.nextPromptId = db.nextPromptId ∧
    (upsertTag db nm).1.nextVersionId = db.nextVersionId := by
  unfold upsertTag
  cases db.tags.find? (fun t => t.name == nm) <;> exact ⟨rfl, rfl, rfl, rfl⟩

theorem linkTagsByName_keeps (pid : Nat) (names : List String) :
    ∀ db : DB, (linkTagsByName pid names db).prompts = db.prompts ∧
      (linkTagsByName pid names db).versions = db.versions ∧
      (linkTagsByName pid names db).nextPromptId = db.nextPromptId ∧
      (linkTagsByName pid names db).nextVersionId = db.nextVersionId := by
  induction names with
  | nil => intro db; exact ⟨rfl, rfl, rfl, rfl⟩
  | cons nm rest ih =>
    intro db
    have h1 := upsertTag_keeps db nm
    have h2 := ih { (upsertTag db nm).1 with
      prompt_tags := (upsertTag db nm).1.prompt_tags ++ [(pid, (upsertTag db nm).2.id)] }
    exact ⟨h2.1.trans h1.1, h2.2.1.trans h1.2.1, h2.2.2.1.trans h1.2.2.1,
      h2.2.2.2.trans h1.2.2.2⟩

@[simp] theorem linkTagsByName_prompts (pid : Nat) (names : List String) (db : DB) :
    (linkTagsByName pid names db).prompts = db.prompts :=
  (linkTagsByName_keeps pid names db).1

@[simp] theorem linkTagsByName_versions (pid : Nat) (names : List String) (db : DB) :
    (linkTagsByName pid names db).versions = db.versions :=
  (linkTagsByName_keeps pid names db).2.1

@[simp] theorem linkTagsByName_nextPromptId (pid : Nat) (names : List String) (db : DB) :
    (linkTagsByName pid names db).nextPromptId = db.nextPromptId :=
  (linkTagsByName_keeps pid names db).2.2.1

@[simp] theorem linkTagsByName_nextVersionId (pid : Nat) (names : List String) (db : DB) :
    (linkTagsByName pid names db).nextVersionId = db.nextVersionId :=
  (linkTagsByName_keeps pid names db).2.2.2

@[simp] theorem tagReplacedDB_prompts (db : DB) (id : Nat) (tg : Option (List String)) :
    (tagReplacedDB db id tg).prompts = db.prompts := by
  cases tg <;> simp [tagReplacedDB]

@[simp] theorem tagReplacedDB_versions (db : DB) (id : Nat) (tg : Option (List String)) :
    (tagReplacedDB db id tg).versions = db.versions := by
  cases tg <;> simp [tagReplacedDB]

@[simp] theorem scalarUpdatedDB_versions (db : DB) (id : Nat) (a : UpdateArgs) :
    (scalarUpdatedDB db id a).versions = db.versions := by
  unfold scalarUpdatedDB
  by_cases h : hasScalarUpdates a <;> simp [h]

theorem applyScalarUpdates_id (a : UpdateArgs) (p : PromptRow) :
    (applyScalarUpdates a p).id = p.id := rfl

theorem find?_map_ite (l : List PromptRow) (id : Nat) (g : PromptRow → PromptRow)
    (hg : ∀ p, (g p).id = p.id) :
    (l.map (fun p => if p.id == id then g p else p)).find? (fun p => p.id == id)
      = (l.find? (fun p => p.id == id)).map g := by
  induction l with
  | nil => rfl
  | cons p rest ih =>
    simp only [List.map_cons]
    rcases Bool.eq_false_or_eq_true (p.id == id) with h | h
    · have hga : ((g p).id == id) = true := by rw [hg]; exact h
      rw [if_pos h, List.find?_cons, List.find?_cons, hga, h]
      rfl
    · rw [if_neg (by rw [h]; exact Bool.false_ne_true), List.find?_cons,
        List.find?_cons, h]
      exact ih

theorem hasScalarUpdates_of_body (a : UpdateArgs) (nb : String)
    (hb : a.body = some nb) : hasScalarUpdates a = true := by
  unfold hasScalarUpdates
  rw [hb]
  simp

theorem scalarUpdatedDB_find?_body (db : DB) (id : Nat) (a : UpdateArgs)
    (q : PromptRow) (hfind : db.prompts.find? (fun p => p.id == id) = some q)
    (nb : String) (hb : a.body = some nb) :
    (scalarUpdatedDB db id a).prompts.find? (fun p => p.id == id)
      = some (applyScalarUpdates a q) := by
  unfold scalarUpdatedDB
  rw [if_pos (hasScalarUpdates_of_body a nb hb)]
  show (db.prompts.map (fun p => if p.id == id then applyScalarUpdates a p else p)).find?
      (fun p => p.id == id) = some (applyScalarUpdates a q)
  rw [find?_map_ite db.prompts id (applyScalarUpdates a) (fun p => rfl), hfind]
  rfl

theorem versioningStep_self (db : DB) (id : Nat) (newBody : Option String) (f : Bool)
    (h : (db.prompts.find? (fun p => p.id == id)).bind (fun p => p.body) = newBody ∨
      truthyStr newBody = false) :
    versioningStep db id newBody f = (db, []) := by
  rcases h with h | h
  · simp only [versioningStep]
    rw [h]
    simp
  · simp only [versioningStep]
    simp [h]

theorem updatePrompt_err (db : DB) (id : Nat) (a : UpdateArgs) (f : Bool)
    (h : db.prompts.find? (fun p => p.id == id) = none) :
    updatePrompt db id a f
      = .error "Failed to retrieve prompt data during update." := by
  unfold updatePrompt
  rw [h]

theorem updatePrompt_ok (db : DB) (id : Nat) (a : UpdateArgs) (f : Bool)
    (q : PromptRow) (hfind : db.prompts.find? (fun p => p.id == id) = some q) :
    updatePrompt db id a f
      = .ok (tagReplacedDB (scalarUpdatedDB db id a) id a.tags, []) := by
  unfold updatePrompt
  rw [hfind]
  show Except.ok
      (versioningStep (tagReplacedDB (scalarUpdatedDB db id a) id a.tags) id a.body f)
    = Except.ok (tagReplacedDB (scalarUpdatedDB db id a) id a.tags, [])
  rw [versioningStep_self]
  cases hb : a.body with
  | none => right; rfl
  | some nb =>
    by_cases hnb : nb = ""
    · right
      rw [hnb]
      decide
    · left
      rw [tagReplacedDB_prompts, scalarUpdatedDB_find?_body db id a q hfind nb hb]
      show a.body.or q.body = some nb
      rw [hb]
      rfl

theorem update_versions_eq (db : DB) (id : Nat) (a : UpdateArgs) (f : Bool) :
    (applyOp db (Op.update id a f)).versions = db.versions := by
  show (match updatePrompt db id a f with
        | .ok r => r.1
        | .error _ => db).versions = db.versions
  cases hfind : db.prompts.find? (fun p => p.id == id) with
  | none => rw [updatePrompt_err db id a f hfind]
  | some q =>
    rw [updatePrompt_ok db id a f q hfind]
    show (tagReplacedDB (scalarUpdatedDB db id a) id a.tags).versions = db.versions
    rw [tagReplacedDB_versions, scalarUpdatedDB_versions]

theorem createPrompt_versions (db : DB) (u : Nat) (a : CreateArgs) (f : Bool) :
    (createPrompt db u a f).1.versions =
      if f then db.versions
      else db.versions ++
        [{ id := db.nextVersionId, prompt_id := db.nextPromptId,
           content := some (a.body.getD ""), version_number := 1,
           is_latest := true, change_log := "Initial version.",
           parent_version_id := none, metadata := [] }] := by
  unfold createPrompt
  cases htags : a.tags with
  | none => cases f <;> rfl
  | some names =>
    cases f <;>
      simp [linkTagsByName_versions, linkTagsByName_nextVersionId]

theorem createPrompt_new_version (db : DB) (u : Nat) (a : CreateArgs) :
    (createPrompt db u a false).1.versions = db.versions ++
      [{ id := db.nextVersionId, prompt_id := db.nextPromptId,
         content := some (a.body.getD ""), version_number := 1,
         is_latest := true, change_log := "Initial version.",
         parent_version_id := none, metadata := [] }] := by
  rw [createPrompt_versions]
  rfl

theorem forkPrompt_err (db : DB) (u pid : Nat) (t : Option String) (f : Bool)
    (h : db.prompts.find? (fun p => p.id == pid) = none) :
    forkPrompt db u pid t f = .error "Original prompt not found for forking." := by
  unfold forkPrompt
  rw [h]

theorem forkPrompt_versions (db : DB) (u pid : Nat) (t : Option String) (f : Bool)
    (orig : PromptRow) (h : db.prompts.find? (fun p => p.id == pid) = some orig) :
    ∃ db2 msgs row, forkPrompt db u pid t f = .ok (db2, msgs, row) ∧
      (db2.versions = db.versions ∨
        ∃ v : VersionRow, db2.versions = db.versions ++ [v] ∧
          v.prompt_id = db.nextPromptId ∧ v.version_number = 1 ∧
          v.is_latest = true) := by
  unfold forkPrompt
  rw [h]
  cases f with
  | true => exact ⟨_, _, _, rfl, Or.inl rfl⟩
  | false => exact ⟨_, _, _, rfl, Or.inr ⟨_, rfl, rfl, rfl, rfl⟩⟩

theorem applyOp_versions (db : DB) (op : Op) :
    (applyOp db op).versions = db.versions ∨
    ∃ v : VersionRow, (applyOp db op).versions = db.versions ++ [v] ∧
      v.prompt_id = db.nextPromptId ∧ v.version_number = 1 ∧
      v.is_latest = true := by
  cases op with
  | create u a f =>
    cases f with
    | true =>
      left
      show (createPrompt db u a true).1.versions = db.versions
      rw [createPrompt_versions]
      rfl
    | false =>
      right
      exact ⟨_, createPrompt_new_version db u a, rfl, rfl, rfl⟩
  | update id a f => exact Or.inl (update_versions_eq db id a f)
  | fork u pid t f =>
    cases hfind : db.prompts.find? (fun p => p.id == pid) with
    | none =>
      left
      show (match forkPrompt db u pid t f with
            | .ok r => r.1
            | .error _ => db).versions = db.versions
      rw [forkPrompt_err db u pid t f hfind]
    | some orig =>
      obtain ⟨db2, msgs, row, hok, hcases⟩ :=
        forkPrompt_versions db u pid t f orig hfind
      have happ : applyOp db (Op.fork u pid t f) = db2 := by
        show (match forkPrompt db u pid t f with
              | .ok r => r.1
              | .error _ => db) = db2
        rw [hok]
      rw [happ]
      exact hcases

theorem latestOk_append_fresh (l : List VersionRow) (v : VersionRow)
    (hl : latestOk l) (hfresh : ∀ w ∈ l, w.prompt_id ≠ v.prompt_id)
    (hlatest : v.is_latest = true) : latestOk (l ++ [v]) := by
  obtain ⟨hex, huniq⟩ := hl
  constructor
  · intro x hx
    rcases List.mem_append.1 hx with hx' | hx'
    · obtain ⟨w, hw, hpid, hlat⟩ := hex x hx'
      exact ⟨w, List.mem_append_left _ hw, hpid, hlat⟩
    · refine ⟨v, List.mem_append_right _ (List.mem_singleton.2 rfl), ?_, hlatest⟩
      rw [List.mem_singleton.1 hx']
  · intro x hx hxl w hw hpid
    rcases List.mem_append.1 hx with hx' | hx' <;>
      rcases List.mem_append.1 hw with hw' | hw'
    · exact huniq x hx' hxl w hw' hpid
    · exfalso
      rw [List.mem_singleton.1 hw'] at hpid
      exact hfresh x hx' hpid.symm
    · exfalso
      rw [List.mem_singleton.1 hx'] at hpid
      exact hfresh w hw' hpid
    · have hx2 := List.mem_singleton.1 hx'
      have hw2 := List.mem_singleton.1 hw'
      subst hx2
      subst hw2
      exact ⟨fun _ => rfl, Nat.le_refl _⟩

theorem gapFree_append_one (l : List VersionRow) (v : VersionRow)
    (hl : gapFree l) (hnum : v.version_number = 1) : gapFree (l ++ [v]) := by
  intro x hx k hk
  rcases List.mem_append.1 hx with hx' | hx'
  · obtain ⟨w, hw, hpid, hwk⟩ := hl x hx' k hk
    exact ⟨w, List.mem_append_left _ hw, hpid, hwk⟩
  · have hx2 := List.mem_singleton.1 hx'
    subst hx2
    rw [hnum] at hk
    have hk0 : k = 0 := Nat.lt_one_iff.1 (List.mem_range.1 hk)
    subst hk0
    exact ⟨x, hx, rfl, by rw [hnum]⟩

/-- Claim C2: invariant I1 is preserved by every operation that writes
versions — creating a prompt, updating a prompt (with a changed body or not)
and forking a prompt: if beforehand every document with at least one Version
has exactly one latest Version carrying the maximum version_number of its
scope, the same holds after the operation, assuming the store's generated
prompt keys are fresh. -/
theorem single_latest_invariant_preserved (db : DB) (op : Op)
    (hb : scopesBounded db) (h1 : latestOk db.versions) :
    latestOk (applyOp db op).versions := by
  rcases applyOp_versions db op with h | ⟨v, hv, hpid, _, hlat⟩
  · rw [h]
    exact h1
  · rw [hv]
    exact latestOk_append_fresh _ _ h1
      (fun w hw => by rw [hpid]; exact Nat.ne_of_lt (hb w hw)) hlat

/-- Witness for C2: a concrete store satisfying the hypotheses, and the
preserved invariant after a concrete fork. -/
theorem single_latest_invariant_preserved_witness :
    scopesBounded dbHello ∧ latestOk dbHello.versions ∧
    latestOk (applyOp dbHello (Op.fork 1 0 none false)).versions :=
  ⟨by decide, by decide,
    single_latest_invariant_preserved dbHello (Op.fork 1 0 none false)
      (by decide) (by decide)⟩

/-- Claim C4: version numbers form a gap-free sequence starting at 1 within
each scope: the invariant that below every stored version_number every
positive number is also stored in the same scope (in particular the first
Version of a lineage is number 1) is preserved by every operation. -/
theorem gapfree_numbering_preserved (db : DB) (op : Op)
    (h2 : gapFree db.versions) : gapFree (applyOp db op).versions := by
  rcases applyOp_versions db op with h | ⟨v, hv, _, hnum, _⟩
  · rw [h]
    exact h2
  · rw [hv]
    exact gapFree_append_one _ _ h2 hnum

/-- Witness for C4: gap-freeness holds for a concrete store and is preserved
by a concrete createPrompt call. -/
theorem gapfree_numbering_preserved_witness :
    gapFree dbHello.versions ∧
    gapFree (applyOp dbHello (Op.create 1 ⟨"New", some "Body", [], none, none,
      none⟩ false)).versions :=
  ⟨by decide,
    gapfree_numbering_preserved dbHello
      (Op.create 1 ⟨"New", some "Body", [], none, none, none⟩ false) (by decide)⟩

/-- Claim C3: committing an unchanged body is a no-op for the version chain —
when the submitted body equals the document's stored body, or the update
carries no body at all (metadata/title-only edit), no new Version is
created. -/
theorem unchanged_body_creates_no_version (db : DB) (id : Nat) (a : UpdateArgs)
    (f : Bool)
    (_h : a.body = none ∨ ∃ p ∈ db.prompts, p.id = id ∧ a.body = p.body) :
    (applyOp db (Op.update id a f)).versions = db.versions :=
  update_versions_eq db id a f

/-- Witness for C3: resubmitting the stored body "Hello" together with a
title edit leaves the version table unchanged. -/
theorem unchanged_body_creates_no_version_witness :
    (updSame.body = none ∨
      ∃ p ∈ dbHello.prompts, p.id = 0 ∧ updSame.body = p.body) ∧
    (applyOp dbHello (Op.update 0 updSame false)).versions = dbHello.versions :=
  ⟨by decide,
    unchanged_body_creates_no_version dbHello 0 updSame false (by decide)⟩

/-- Claim C10: an updatePrompt call whose new body is the empty string, or
whose document has an empty or absent stored body, never creates a Version
even though the bodies differ — clearing a body is not recorded in the
version history. -/
theorem empty_body_update_creates_no_version (db : DB) (id : Nat)
    (a : UpdateArgs) (f : Bool)
    (_h : a.body = some "" ∨
      ∀ p ∈ db.prompts, p.id = id → (p.body = none ∨ p.body = some "")) :
    (applyOp db (Op.update id a f)).versions = db.versions :=
  update_versions_eq db id a f

/-- Witness for C10: clearing the body "Hello" to "" creates no version. -/
theorem empty_body_update_creates_no_version_witness :
    (updClear.body = some "" ∨
      ∀ p ∈ dbHello.prompts, p.id = 0 → (p.body = none ∨ p.body = some "")) ∧
    (applyOp dbHello (Op.update 0 updClear false)).versions = dbHello.versions :=
  ⟨by decide,
    empty_body_update_creates_no_version dbHello 0 updClear false (by decide)⟩

/-- Claim C5, evaluation at the failing input: updating the stored body
"Hello" to "Hello world" leaves the version table exactly as it was — no
Version with change_log "Updated body. 1 additions, 0 deletions." (or any
new Version) is written, because line 243 of usePrompts.ts re-reads the
comparison body after step 1 already stored the new body, so the guard
newBody !== bodyForComparison of line 246 never passes. -/
theorem body_change_writes_no_changelog :
    (applyOp dbHello (Op.update 0 updHW false)).versions = [vHello] ∧
    ((applyOp dbHello (Op.update 0 updHW false)).versions.filter
      (fun v => v.change_log == "Updated body. 1 additions, 0 deletions."))
      = [] := by
  constructor
  · decide
  · decide

/-- Claim C9, evaluation at the failing input: with a failing
prompt_versions insert injected, updating "Hello" to "Hello world" still
returns successfully and keeps the scalar update, but the toast
"Prompt updated, but failed to create new version." is never emitted and the
previous latest version is untouched, because the insert the claim assumes
can fail is never even attempted (the comparison body is re-read after the
scalar update, so the versioning branch is unreachable). -/
theorem version_insert_failure_unreachable :
    updatePrompt dbHello 0 updHW true =
      .ok ({ dbHello with prompts := [{ pHello with body := some "Hello world" }] },
        []) := by
  rfl

/-- Claim C6: creating a document creates its Version 1 with
parent_version_id null, change_log "Initial version.", version_number 1 and
is_latest true, for the prompt row the call returns. -/
theorem create_initial_version (db : DB) (u : Nat) (a : CreateArgs) :
    (createPrompt db u a false).1.versions = db.versions ++
      [{ id := db.nextVersionId, prompt_id := db.nextPromptId,
         content := some (a.body.getD ""), version_number := 1,
         is_latest := true, change_log := "Initial version.",
         parent_version_id := none, metadata := [] }] ∧
    (createPrompt db u a false).2.2.id = db.nextPromptId := by
  constructor
  · exact createPrompt_new_version db u a
  · rfl

/-- Claim C7: forking a document yields a new draft, private document whose
forked_from is the source id, whose title is the supplied newTitle or else
"{source title} (Fork)" (the or-else is the code's JS truthiness default, so
an absent or empty newTitle falls back), whose body and metadata are copied
verbatim, whose tag links reuse the existing tag identities without touching
the tags table, and whose Version 1 is latest with the forked body as
content and change_log "Initial version (forked).". -/
theorem fork_spec (db : DB) (u pid : Nat) (t : Option String)
    (orig : PromptRow)
    (h : db.prompts.find? (fun p => p.id == pid) = some orig) :
    ∃ db2 msgs row, forkPrompt db u pid t false = .ok (db2, msgs, row) ∧
      row.status = "draft" ∧ row.visibility = "private" ∧
      row.forked_from = some pid ∧
      row.title = jsOrDefault t (orig.title ++ " (Fork)") ∧
      row.body = orig.body ∧ row.metadata = orig.metadata ∧
      db2.tags = db.tags ∧
      db2.prompt_tags = db.prompt_tags ++
        (forkSourceTags db pid).map (fun tg => (row.id, tg.id)) ∧
      db2.versions = db.versions ++
        [{ id := db.nextVersionId, prompt_id := row.id, content := row.body,
           version_number := 1, is_latest := true,
           change_log := "Initial version (forked).",
           parent_version_id := none, metadata := [] }] := by
  unfold forkPrompt
  rw [h]
  exact ⟨_, _, _, rfl, rfl, rfl, rfl, rfl, rfl, rfl, rfl, rfl, rfl⟩

/-- Witness for C7: forking the concrete source prompt with tags t1 and t2. -/
theorem fork_spec_witness :
    dbFork.prompts.find? (fun p => p.id == 0) = some srcPrompt ∧
    (∃ db2 msgs row, forkPrompt dbFork 9 0 none false = .ok (db2, msgs, row) ∧
      row.status = "draft" ∧ row.visibility = "private" ∧
      row.forked_from = some 0 ∧
      row.title = jsOrDefault none (srcPrompt.title ++ " (Fork)") ∧
      row.body = srcPrompt.body ∧ row.metadata = srcPrompt.metadata ∧
      db2.tags = dbFork.tags ∧
      db2.prompt_tags = dbFork.prompt_tags ++
        (forkSourceTags dbFork 0).map (fun tg => (row.id, tg.id)) ∧
      db2.versions = dbFork.versions ++
        [{ id := dbFork.nextVersionId, prompt_id := row.id,
           content := row.body, version_number := 1, is_latest := true,
           change_log := "Initial version (forked).",
           parent_version_id := none, metadata := [] }]) :=
  ⟨by decide, fork_spec dbFork 9 0 none srcPrompt (by decide)⟩

/-- Claim C8, evaluation at the failing input: the Version written for a
document created with title "T", body "B", model metadata and tag t1 stores
content "B" — the bare body string, with empty version metadata — not a
snapshot bundling body, title, tag set and model metadata, although the
restore path in PromptDetail reads content.body, content.title, content.tags
and content.model from it. -/
theorem version_content_is_body_string_only :
    ((createPrompt dbEmpty 7 createSnap false).1.versions.map
      (fun v => (v.content, v.metadata)))
      = [(some "B", ([] : List (String × String)))] := by
  decide

end PromptHub
